import Mathlib

/-!
Shallow embedding of the core of the yoloapp repository:
the dataset exporter (`djangoApp/views.py`) and the YOLOv9 inference
service (`djangoApp/services/yolo_inference.py`).

Python floats are modelled as rationals (`ℚ`), Python ints as `ℤ`,
byte strings as `List ℕ` or `String`, fallible code as `Except`/`Option`.
External libraries (torch, PIL, hashlib, zipfile, base64) are modelled
by abstract function parameters or by the outcome of their calls, as
noted on each definition.
-/

set_option linter.unusedVariables false

/-! ## Exporter: `views.py` -/

/-- `max(0.0, min(1.0, v))` as used in `_export_dataset_zip` (views.py:159-162). -/
def clamp01 (q : ℚ) : ℚ := max 0 (min 1 q)

/-- Python `int()` truncation of a float toward zero, for `int(det[0])`. -/
def pyInt (q : ℚ) : ℤ := q.num.tdiv (q.den : ℤ)

/-- Zero padding of a digit string to width 6 (helper for `fmt6`). -/
def pad6 (s : String) : String := String.mk (List.replicate (6 - s.length) '0') ++ s

/-- Python `f"{v:.6f}"` on a non-negative value: round to 6 decimal places
and print with exactly 6 fractional digits.  Rounding is half-up on the
rational value; the source applies it to IEEE doubles, which agrees on
all inputs whose 7th decimal is not an exact tie. -/
def fmt6 (q : ℚ) : String :=
  let n : ℤ := Rat.floor (q * 1000000 + 1/2)
  let ip := n / 1000000
  let fp := (n % 1000000).toNat
  toString ip ++ "." ++ pad6 (toString fp)

/-- Does the character list start with the pattern (helper for `strContains`). -/
def charsStartWith : List Char → List Char → Bool
  | _, [] => true
  | [], _ :: _ => false
  | c :: cs, p :: ps => c == p && charsStartWith cs ps

/-- Does the character list contain the pattern as a contiguous run. -/
def charsContain (pat : List Char) : List Char → Bool
  | [] => charsStartWith [] pat
  | c :: cs => charsStartWith (c :: cs) pat || charsContain pat cs

/-- `pat in s` for Python strings (substring test). -/
def strContains (s pat : String) : Bool := charsContain pat.toList s.toList

/-- Split a character list on a separator character (helper for `pathName`). -/
def splitChars (sep : Char) : List Char → List (List Char)
  | [] => [[]]
  | c :: cs =>
    let r := splitChars sep cs
    if c == sep then [] :: r
    else
      match r with
      | [] => [[c]]
      | g :: gs => (c :: g) :: gs

/-- Python `str.strip()` (over the 4 common ASCII whitespace characters). -/
def strTrim (s : String) : String :=
  let ws := fun (c : Char) => c == ' ' || c == '\t' || c == '\n' || c == '\r'
  String.mk (((s.toList.dropWhile ws).reverse.dropWhile ws).reverse)

/-- Python `str.lower()` (ASCII range, enough for the dataset slugs). -/
def strLower (s : String) : String :=
  String.mk (s.toList.map (fun c => if 'A' ≤ c ∧ c ≤ 'Z' then Char.ofNat (c.toNat + 32) else c))

/-- Python `sep.join(parts)`. -/
def joinSep (sep : String) : List String → String
  | [] => ""
  | [s] => s
  | s :: rest => s ++ sep ++ joinSep sep rest

/-- `pathlib.Path(s).name` (posix): the last path component, with empty
and `"."` components dropped. -/
def pathName (s : String) : String :=
  match (((splitChars '/' s.toList).map String.mk).filter
      (fun c => c != "" && c != ".")).getLast? with
  | some c => c
  | none => ""

/-- `pathlib.Path` stem/suffix split of a bare file name `nm`:
the suffix is `nm[i:]` for the last index `i` of a dot, provided
`0 < i < len(nm) - 1`; otherwise the suffix is empty. -/
def pathSuffixSplit (nm : String) : String × String :=
  let cs := nm.toList
  let n := cs.length
  match ((List.range n).filter (fun i => (cs.getD i ' ') == '.')).getLast? with
  | some i =>
    if 0 < i ∧ i < n - 1 then (String.mk (cs.take i), String.mk (cs.drop i))
    else (nm, "")
  | none => (nm, "")

/-- `pathlib.Path(s).stem`. -/
def pathStem (s : String) : String := (pathSuffixSplit (pathName s)).1

/-- The `while candidate in used_names` loop of `unique_filename`
(views.py:116-118).  The loop tries `stem_1`, `stem_2`, ... in order;
`fuel = used.length` always suffices because the candidates are pairwise
distinct and `used` is finite, so the embedding agrees with the source. -/
def freshLoop (used : List String) (stem sfx : String) : ℕ → ℕ → String
  | 0, k => stem ++ "_" ++ toString k ++ sfx
  | fuel + 1, k =>
    let cand := stem ++ "_" ++ toString k ++ sfx
    if cand ∈ used then freshLoop used stem sfx fuel (k + 1) else cand

/-- `unique_filename(original_name, fallback_ext)` (views.py:110-120),
with the captured `used_names` set passed explicitly. -/
def unique_filename (used : List String) (original_name : String) (fallback_ext : String) : String :=
  let nm := pathName (if original_name = "" then "image" else original_name)
  let p := pathSuffixSplit nm
  let stem := if p.1 = "" then "image" else p.1
  let sfx := if p.2 = "" then fallback_ext else p.2
  let candidate := stem ++ sfx
  if candidate ∈ used then freshLoop used stem sfx used.length 1 else candidate

/-- One entry of the posted `classes` list: `{"id": ..., "label": ...}`. -/
structure ClassDef where
  id : String
  label : String
deriving DecidableEq

/-- One entry of an image's `boxes` list.  Each coordinate field is the
outcome of `float(box.get(k, 0))`: `some q` when the field parses to the
float `q` (a missing field defaults to `0`), `none` when `float()` raises. -/
structure BoxPct where
  classId : String
  x : Option ℚ
  y : Option ℚ
  w : Option ℚ
  h : Option ℚ
deriving DecidableEq

/-- One entry of the posted `images` list.  `src` models the data URL:
`some (header, bytes)` when it contains a comma and its base64 body
decodes to `bytes`; `none` when it is missing, has no comma, or fails
base64 decoding (all three return the 400 error naming the image). -/
structure ImageAnn where
  name : String
  src : Option (String × String)
  boxes : List BoxPct
deriving DecidableEq

/-- `class_index = {cls["id"]: idx for idx, cls in enumerate(classes)}`
(views.py:103): for a duplicated id the later index wins, hence `getLast?`. -/
def classIndex (classes : List ClassDef) (cid : String) : Option ℕ :=
  ((classes.enum.filter (fun p => p.2.id == cid)).map (fun p => p.1)).getLast?

/-- `_normalize_class_names` (views.py:28-33). -/
def _normalize_class_names (classes : List ClassDef) : List String :=
  classes.enum.map (fun p =>
    let label := strTrim p.2.label
    if label = "" then "class_" ++ toString p.1 else label)

/-- `json.dumps` of a string (escaping of special characters is not
modelled; the claims only use plain names). -/
def jsonStringLiteral (s : String) : String := "\"" ++ s ++ "\""

/-- `json.dumps` of a list of strings. -/
def jsonListLiteral (names : List String) : String :=
  "[" ++ joinSep ", " (names.map jsonStringLiteral) ++ "]"

/-- `_build_dataset_yaml` (views.py:36-53). -/
def _build_dataset_yaml (class_names : List String) : String :=
  joinSep "\n"
    ["path: dataset", "train: train", "validation: val", "test: test", "",
     "class_num: " ++ toString class_names.length,
     "class_list: " ++ jsonListLiteral class_names, "",
     "img_size: [1280, 1280]", "",
     "num_workers: 2", ""]

/-- The per-box conversion of `_export_dataset_zip` (views.py:143-162):
class-id lookup, float parsing of `w,h,x,y`, the `w<=0 or h<=0` skip, and
the clamped normalized center-format values `(classIndex, cx, cy, w, h)`. -/
def convertBox (index : String → Option ℕ) (b : BoxPct) : Option (ℕ × ℚ × ℚ × ℚ × ℚ) :=
  match index b.classId with
  | none => none
  | some ci =>
    match b.w, b.h, b.x, b.y with
    | some w, some h, some x, some y =>
      if w ≤ 0 ∨ h ≤ 0 then none
      else some (ci, clamp01 ((x + w / 2) / 100), clamp01 ((y + h / 2) / 100),
                 clamp01 (w / 100), clamp01 (h / 100))
    | _, _, _, _ => none

/-- The label line emitted for a box (views.py:164-166), or `none` when
the box is skipped. -/
def processBox (index : String → Option ℕ) (b : BoxPct) : Option String :=
  (convertBox index b).map (fun t =>
    toString t.1 ++ " " ++ fmt6 t.2.1 ++ " " ++ fmt6 t.2.2.1 ++ " " ++
      fmt6 t.2.2.2.1 ++ " " ++ fmt6 t.2.2.2.2)

/-- The per-image loop of `_export_dataset_zip` (views.py:126-170): for each
image, validate/decode its data URL, assign a collision-free file name, write
the image entry and then the label entry (possibly with empty content).
Returns the archive entries `(path, content)` in write order, or the first
error response. -/
def exportImages (idx : String → Option ℕ) (folder : String) :
    List ImageAnn → List String → Except String (List (String × String))
  | [], _ => .ok []
  | img :: rest, used =>
    match img.src with
    | none => .error ("invalid image data: " ++ img.name)
    | some hb =>
      let fext := if strContains hb.1 "jpeg" || strContains hb.1 "jpg" then ".jpg" else ".png"
      let fn := unique_filename used img.name fext
      match exportImages idx folder rest (fn :: used) with
      | .error e => .error e
      | .ok es =>
        .ok ((folder ++ "/images/" ++ fn, hb.2)
          :: (folder ++ "/labels/" ++ pathStem fn ++ ".txt",
              joinSep "\n" (img.boxes.filterMap (processBox idx)))
          :: es)

/-- `_export_dataset_zip(request, dataset_slug)` (views.py:85-178) after JSON
parsing: validates non-empty `classes`/`images`, processes every image, and
appends `dataset.yaml` only for the `train` slug.  Returns the archive
entries and the response file name, or the first 400-error message. -/
def _export_dataset_zip (dataset_slug : String) (classes : List ClassDef)
    (images : List ImageAnn) : Except String (List (String × String) × String) :=
  if classes.isEmpty then .error "add classes before export"
  else if images.isEmpty then .error "add images before export"
  else
    let dataset_folder := if strTrim dataset_slug = "" then "dataset" else strTrim dataset_slug
    let yamlEntries :=
      if strLower dataset_slug = "train" then
        [(dataset_folder ++ "/dataset.yaml", _build_dataset_yaml (_normalize_class_names classes))]
      else []
    match exportImages (classIndex classes) dataset_folder images [] with
    | .error e => .error e
    | .ok es => .ok (es ++ yamlEntries, dataset_folder ++ ".zip")

/-- The disjunction of all skip conditions of the per-box loop
(views.py:144-157): unknown class id, a coordinate field that fails float
parsing, or non-positive width/height. -/
def invalidBox (index : String → Option ℕ) (b : BoxPct) : Bool :=
  (index b.classId).isNone || b.x.isNone || b.y.isNone || b.w.isNone || b.h.isNone ||
  (match b.w with | some w => decide (w ≤ 0) | none => false) ||
  (match b.h with | some h => decide (h ≤ 0) | none => false)

/-! ## Inference settings: `views.py` -/

/-- The `InferenceSettings` dataclass (yolo_inference.py:41-49).  Its only
fields are `img_size`, `min_confidence`, `min_iou`, `max_bbox`. -/
structure InferenceSettings where
  img_size : ℤ := 640
  min_confidence : ℚ := 0.25
  min_iou : ℚ := 0.45
  max_bbox : ℤ := 300
deriving DecidableEq

/-- The field names of the `InferenceSettings` dataclass, i.e. the keyword
arguments its generated `__init__` accepts. -/
def inferenceSettingsFieldNames : List String :=
  ["img_size", "min_confidence", "min_iou", "max_bbox"]

/-- The keyword arguments `_build_inference_settings` passes to
`InferenceSettings(...)` (views.py:262-269). -/
def buildCallKwargNames : List String :=
  ["img_size", "min_confidence", "min_iou", "max_bbox", "num_workers", "class_names"]

/-- Python call semantics: a dataclass `__init__` called with a keyword
argument that is not a field raises `TypeError`. -/
def dataclassCallOk (fields kwargs : List String) : Bool :=
  kwargs.all (fun k => fields.contains k)

/-- `_parse_int(value, default, minimum=..., maximum=...)` (views.py:203-208).
`value` is the outcome of `int(...)` on the posted string: `none` models a
missing or unparseable value (the `TypeError`/`ValueError` branch). -/
def _parse_int (value : Option ℤ) (default : ℤ) (minimum maximum : ℤ) : ℤ :=
  match value with
  | none => default
  | some n => max minimum (min maximum n)

/-- `_parse_float` (views.py:195-200), analogously. -/
def _parse_float (value : Option ℚ) (default : ℚ) (minimum maximum : ℚ) : ℚ :=
  match value with
  | none => default
  | some q => max minimum (min maximum q)

/-- The effective inference resolution computed by
`_build_inference_settings` from the posted `img_size`
(views.py:252-256): parse with default 640 and clamp to [32,2048], then
subtract `img_size % 32`, then force a floor of 32. -/
def effective_img_size (posted : Option ℤ) : ℤ :=
  let s := _parse_int posted 640 32 2048
  let s2 := s - s % 32
  if s2 < 32 then 32 else s2

/-- The posted form fields consumed by `_build_inference_settings`, each
already reduced to its parse outcome (`none` = missing or unparseable). -/
structure PostData where
  img_size : Option ℤ
  min_confidence : Option ℚ
  min_iou : Option ℚ
  max_bbox : Option ℤ
  num_workers : Option ℤ
  class_names : Option (List String)

/-- `_build_inference_settings(post_data)` (views.py:251-269): parses the
six options, then calls `InferenceSettings(img_size=..., min_confidence=...,
min_iou=..., max_bbox=..., num_workers=..., class_names=...)`.  The call is
modelled with Python's keyword-argument check against the dataclass fields. -/
def _build_inference_settings (post : PostData) : Except String InferenceSettings :=
  let img_size := effective_img_size post.img_size
  let min_confidence := _parse_float post.min_confidence 0.25 0 1
  let min_iou := _parse_float post.min_iou 0.45 0 1
  let max_bbox := _parse_int post.max_bbox 300 1 2000
  let num_workers := _parse_int post.num_workers 4 0 128
  let class_names := post.class_names
  if dataclassCallOk inferenceSettingsFieldNames buildCallKwargNames then
    .ok { img_size := img_size, min_confidence := min_confidence,
          min_iou := min_iou, max_bbox := max_bbox }
  else
    .error "TypeError: unexpected keyword argument"

/-! ## Detection parsing: `yolo_inference.py` -/

/-- One parsed detection record (yolo_inference.py:262-277).  `x1,y1,x2,y2`
are the `bbox` entries, `w,h` the derived `width`/`height`. -/
structure Detection where
  class_id : ℤ
  class_name : String
  confidence : ℚ
  x1 : ℚ
  y1 : ℚ
  x2 : ℚ
  y2 : ℚ
  w : ℚ
  h : ℚ
deriving DecidableEq

/-- The class-name expression of `_parse_detections` (yolo_inference.py:273):
`self._class_names[cls_id] if cls_id < len(self._class_names) else
f"class_{cls_id}"`, with Python list-indexing semantics spelled out: a
negative index `-len ≤ i < 0` reads from the end, an index `< -len` raises
`IndexError`. -/
def resolveClassName (names : List String) (clsId : ℤ) : Except String String :=
  if clsId < (names.length : ℤ) then
    if 0 ≤ clsId then .ok (names.getD clsId.toNat "")
    else if -(names.length : ℤ) ≤ clsId then
      .ok (names.getD ((names.length : ℤ) + clsId).toNat "")
    else .error "list index out of range"
  else .ok ("class_" ++ toString clsId)

/-- The per-row body of `_parse_detections` (yolo_inference.py:258-277):
rows shorter than 6 are skipped; otherwise the bbox is clamped one-sidedly
(`x1,y1` from below by 0, `x2,y2` from above by width/height), the derived
width/height floored at 0, and the class name resolved. -/
def parseRow (names : List String) (imgW imgH : ℚ) (det : List ℚ) :
    Except String (Option Detection) :=
  if det.length < 6 then .ok none
  else
    let clsId := pyInt (det.getD 0 0)
    let x1 := max 0 (det.getD 1 0)
    let y1 := max 0 (det.getD 2 0)
    let x2 := min imgW (det.getD 3 0)
    let y2 := min imgH (det.getD 4 0)
    match resolveClassName names clsId with
    | .error e => .error e
    | .ok cname =>
      .ok (some { class_id := clsId, class_name := cname,
                  confidence := det.getD 5 0,
                  x1 := x1, y1 := y1, x2 := x2, y2 := y2,
                  w := max 0 (x2 - x1), h := max 0 (y2 - y1) })

/-- `_parse_detections` (yolo_inference.py:244-278) from `tensor.tolist()`
onward: the tensor is modelled as its list of rows; the loop accumulates
parsed rows in order and propagates the first raised exception. -/
def _parse_detections (names : List String) (imgW imgH : ℚ) :
    List (List ℚ) → Except String (List Detection)
  | [] => .ok []
  | r :: rs =>
    match parseRow names imgW imgH r with
    | .error e => .error e
    | .ok none => _parse_detections names imgW imgH rs
    | .ok (some d) =>
      match _parse_detections names imgW imgH rs with
      | .error e => .error e
      | .ok ds => .ok (d :: ds)

/-! ## Weight loading: `yolo_inference.py` -/

/-- A deserialized checkpoint object (`torch.load` result): a dict of named
entries or an opaque non-dict value. -/
inductive PyObj where
  | dict : List (String × PyObj) → PyObj
  | leaf : String → PyObj

/-- `_normalize_state_dict` (yolo_inference.py:321-327): a dict nested under
`"state_dict"` has the `"model.model."` key fragment stripped; a dict nested
under `"model"` is unwrapped; anything else passes through. -/
def _normalize_state_dict (checkpoint : PyObj) : PyObj :=
  match checkpoint with
  | .dict entries =>
    match entries.lookup "state_dict" with
    | some (.dict sd) => .dict (sd.map (fun p => (p.1.replace "model.model." "", p.2)))
    | _ =>
      match entries.lookup "model" with
      | some (.dict m) => .dict m
      | _ => .dict entries
  | other => other

/-- The engine state touched by `_load_weights`: the cached content hash
`self._current_weight_hash`. -/
structure EngineState where
  current_weight_hash : Option String
deriving DecidableEq

/-- How many expensive external operations a `_load_weights` call performed:
`torch.load` deserializations and `load_state_dict` applications. -/
structure LoadTrace where
  deserialized : ℕ
  applied : ℕ
deriving DecidableEq

/-- The three raise sites of `_load_weights`, all `ModelLoadError`. -/
inductive LoadErr where
  | emptyFile : LoadErr
  | deserializeFailed : String → String → LoadErr
  | applyFailed : String → LoadErr
deriving DecidableEq

/-- The external operations `_load_weights` depends on: `hashlib.sha1` on
the checkpoint bytes, `torch.load` (which may raise), and
`load_state_dict(..., strict=False)` (`some cause` = raises, `none` = ok). -/
structure WeightEnv where
  sha1 : List ℕ → String
  torchLoad : List ℕ → Except String PyObj
  applyResult : PyObj → Option String

/-- `_load_weights(weight_bytes, label)` (yolo_inference.py:298-319) as a
state transition: returns the post-call engine state, the outcome, and the
trace of expensive operations.  The cached hash is assigned only after a
successful apply, mirroring the assignment order of the source. -/
def _load_weights (env : WeightEnv) (st : EngineState) (weight_bytes : List ℕ)
    (label : String) : EngineState × Except LoadErr Unit × LoadTrace :=
  if weight_bytes = [] then (st, .error .emptyFile, ⟨0, 0⟩)
  else
    let weight_hash := env.sha1 weight_bytes
    if st.current_weight_hash = some weight_hash then (st, .ok (), ⟨0, 0⟩)
    else
      match env.torchLoad weight_bytes with
      | .error cause => (st, .error (.deserializeFailed label cause), ⟨1, 0⟩)
      | .ok checkpoint =>
        let state_dict := _normalize_state_dict checkpoint
        match env.applyResult state_dict with
        | some cause => (st, .error (.applyFailed cause), ⟨1, 1⟩)
        | none => ({ current_weight_hash := some weight_hash }, .ok (), ⟨1, 1⟩)

deriving instance DecidableEq for Except

/-! ## Helper lemmas -/

/-- Reverse indexing: the k-th element of the reverse is the j-th element
when `k + j + 1` is the length. -/
theorem reverse_getD_of_add (l : List String) (j k : ℕ) (h : k + j + 1 = l.length) :
    l.reverse.getD k "" = l.getD j "" := by
  rw [List.getD_eq_getElem?_getD, List.getD_eq_getElem?_getD, List.getElem?_reverse' k j h]

/-- `clamp01` never goes below 0. -/
theorem clamp01_nonneg (q : ℚ) : 0 ≤ clamp01 q := le_max_left 0 _

/-- `clamp01` never goes above 1. -/
theorem clamp01_le_one (q : ℚ) : clamp01 q ≤ 1 := max_le (by norm_num) (min_le_left _ _)

/-- A box meeting any skip condition produces no label line. -/
theorem invalid_box_no_line (idx : String → Option ℕ) (b : BoxPct)
    (hinv : invalidBox idx b = true) : processBox idx b = none := by
  unfold invalidBox at hinv
  unfold processBox convertBox
  split
  · rfl
  · rename_i ci hidx
    rw [hidx] at hinv
    split <;> try rfl
    rename_i wv hv xv yv hw hh hx hy
    rw [hw, hh, hx, hy] at hinv
    simp only [Option.isNone_some, Option.isNone_none, Bool.false_or, Bool.or_false,
      Bool.true_or, Bool.or_true, Bool.or_eq_true, decide_eq_true_eq] at hinv
    rw [if_pos hinv]
    rfl

/-- The per-image export loop only depends on an image through its name,
its decoded payload and its emitted label lines. -/
theorem exportImages_boxes_congr (idx : String → Option ℕ) (folder : String)
    (i1 i2 : ImageAnn) (hname : i1.name = i2.name) (hsrc : i1.src = i2.src)
    (hboxes : i1.boxes.filterMap (processBox idx) = i2.boxes.filterMap (processBox idx)) :
    ∀ (imgs1 imgs2 : List ImageAnn) (used : List String),
      exportImages idx folder (imgs1 ++ i1 :: imgs2) used
        = exportImages idx folder (imgs1 ++ i2 :: imgs2) used := by
  intro imgs1
  induction imgs1 with
  | nil =>
    intro imgs2 used
    simp only [List.nil_append, exportImages]
    rw [hname, hsrc, hboxes]
  | cons a rest ih =>
    intro imgs2 used
    simp only [List.cons_append, exportImages, List.append_eq]
    cases hs : a.src with
    | none => rfl
    | some hb =>
      dsimp only
      rw [ih]

/-! ## Claims -/

/-- Claim C1 (amended): `_parse_detections` clamps the bbox one-sidedly:
`x1,y1` are floored at 0 (but may exceed width/height when the raw values
do), `x2,y2` are capped at width/height (but may be negative), and the
derived width/height fields are non-negative. -/
theorem parse_detections_one_sided_clamp :
    ∀ (names : List String) (imgW imgH : ℚ) (rows : List (List ℚ)) (ds : List Detection),
      _parse_detections names imgW imgH rows = .ok ds →
      ∀ d ∈ ds, 0 ≤ d.x1 ∧ 0 ≤ d.y1 ∧ d.x2 ≤ imgW ∧ d.y2 ≤ imgH ∧ 0 ≤ d.w ∧ 0 ≤ d.h := by
  intro names imgW imgH rows
  induction rows with
  | nil =>
    intro ds h d hd
    simp only [_parse_detections, Except.ok.injEq] at h
    subst h
    simp at hd
  | cons r rs ih =>
    intro ds h d hd
    simp only [_parse_detections] at h
    split at h
    · exact absurd h (by simp)
    · exact ih ds h d hd
    · rename_i d0 hrow
      split at h
      · exact absurd h (by simp)
      · rename_i ds2 hrec
        simp only [Except.ok.injEq] at h
        subst h
        rcases List.mem_cons.mp hd with rfl | hd2
        · simp only [parseRow] at hrow
          split at hrow
          · exact absurd hrow (by simp)
          · split at hrow
            · exact absurd hrow (by simp)
            · simp only [Except.ok.injEq, Option.some.injEq] at hrow
              subst hrow
              exact ⟨le_max_left _ _, le_max_left _ _, min_le_left _ _, min_le_left _ _,
                     le_max_left _ _, le_max_left _ _⟩
        · exact ih ds2 hrec d hd2

/-- The detection produced for the raw row `[0, 150, 5, 50, 50, 0.9]` on a
100×100 image: its `x1` keeps the raw value 150. -/
def cDet : Detection :=
  { class_id := 0, class_name := "person", confidence := 9 / 10,
    x1 := 150, y1 := 5, x2 := 50, y2 := 50, w := 0, h := 45 }

/-- Claim C1, counterexample: on a 100×100 image a raw row with `x1 = 150`
yields a Detection whose `x1` is 150, outside `[0, width]` — the bbox is not
fully clamped into the image bounds. -/
theorem parse_detections_bbox_counterexample :
    _parse_detections ["person"] 100 100 [[0, 150, 5, 50, 50, 9 / 10]] = .ok [cDet] ∧
    ¬ (cDet.x1 ≤ 100) := by
  constructor
  · with_unfolding_all decide
  · show ¬ ((150 : ℚ) ≤ 100)
    norm_num

/-- Claim C1, witness for the amended theorem at the concrete row above. -/
theorem parse_detections_one_sided_clamp_witness :
    0 ≤ cDet.x1 ∧ 0 ≤ cDet.y1 ∧ cDet.x2 ≤ 100 ∧ cDet.y2 ≤ 100 ∧ 0 ≤ cDet.w ∧ 0 ≤ cDet.h :=
  parse_detections_one_sided_clamp ["person"] 100 100 [[0, 150, 5, 50, 50, 9 / 10]] [cDet]
    (by with_unfolding_all decide) cDet (List.mem_singleton.mpr rfl)

/-- Claim C2: for every request, `_build_inference_settings` raises a
`TypeError` — it passes the keyword arguments `num_workers` and
`class_names` to the `InferenceSettings` dataclass, which has no such
fields, so construction never succeeds. -/
theorem build_settings_always_raises (post : PostData) :
    _build_inference_settings post = .error "TypeError: unexpected keyword argument" := rfl

/-- Claim C3: for every valid box the exporter emits the clamped normalized
center-format values and the 6-decimal label line; in particular the class
`dog` with box `x=10,y=20,w=30,h=40` yields the label line
`0 0.250000 0.400000 0.300000 0.400000`, and exporting as `train` adds a
`dataset.yaml` whose text lists `class_num: 1`. -/
theorem export_box_conversion_and_example :
    (∀ (index : String → Option ℕ) (b : BoxPct) (ci : ℕ) (x y w h : ℚ),
      index b.classId = some ci → b.x = some x → b.y = some y →
      b.w = some w → b.h = some h → 0 < w → 0 < h →
      convertBox index b
          = some (ci, clamp01 ((x + w / 2) / 100), clamp01 ((y + h / 2) / 100),
                  clamp01 (w / 100), clamp01 (h / 100)) ∧
      processBox index b
          = some (toString ci ++ " " ++ fmt6 (clamp01 ((x + w / 2) / 100)) ++ " " ++
              fmt6 (clamp01 ((y + h / 2) / 100)) ++ " " ++ fmt6 (clamp01 (w / 100)) ++ " " ++
              fmt6 (clamp01 (h / 100)))) ∧
    _export_dataset_zip "train" [⟨"c1", "dog"⟩]
        [⟨"img1.png", some ("data:image/png;base64", "IMG1"),
          [⟨"c1", some 10, some 20, some 30, some 40⟩]⟩]
      = .ok ([("train/images/img1.png", "IMG1"),
              ("train/labels/img1.txt", "0 0.250000 0.400000 0.300000 0.400000"),
              ("train/dataset.yaml", _build_dataset_yaml ["dog"])], "train.zip") ∧
    strContains (_build_dataset_yaml (_normalize_class_names [⟨"c1", "dog"⟩])) "class_num: 1"
      = true := by
  refine ⟨?_, by with_unfolding_all rfl, by decide⟩
  intro index b ci x y w h hci hx hy hw hh hw0 hh0
  have hcv : convertBox index b
      = some (ci, clamp01 ((x + w / 2) / 100), clamp01 ((y + h / 2) / 100),
              clamp01 (w / 100), clamp01 (h / 100)) := by
    unfold convertBox
    rw [hci, hw, hh, hx, hy]
    dsimp only
    rw [if_neg (not_or.mpr ⟨not_le.mpr hw0, not_le.mpr hh0⟩)]
  refine ⟨hcv, ?_⟩
  unfold processBox
  rw [hcv]
  rfl

/-- Claim C3, witness: the conversion applied to the example box. -/
theorem export_box_conversion_witness :
    convertBox (classIndex [⟨"c1", "dog"⟩]) ⟨"c1", some 10, some 20, some 30, some 40⟩
        = some (0, clamp01 ((10 + 30 / 2) / 100), clamp01 ((20 + 40 / 2) / 100),
                clamp01 (30 / 100), clamp01 (40 / 100)) ∧
    processBox (classIndex [⟨"c1", "dog"⟩]) ⟨"c1", some 10, some 20, some 30, some 40⟩
        = some (toString 0 ++ " " ++ fmt6 (clamp01 ((10 + 30 / 2) / 100)) ++ " " ++
            fmt6 (clamp01 ((20 + 40 / 2) / 100)) ++ " " ++ fmt6 (clamp01 (30 / 100)) ++ " " ++
            fmt6 (clamp01 (40 / 100))) :=
  export_box_conversion_and_example.1 (classIndex [⟨"c1", "dog"⟩])
    ⟨"c1", some 10, some 20, some 30, some 40⟩ 0 10 20 30 40
    (by decide) rfl rfl rfl rfl (by norm_num) (by norm_num)

/-- Claim C4, counterexample: two images named `cat.png` and `cat.jpg` get
distinct image file names but both label entries are named
`val/labels/cat.txt` — the archive holds duplicate label entry names, so the
image↔label mapping is not 1:1 by name. -/
theorem labels_duplicate_name_counterexample :
    _export_dataset_zip "val" [⟨"c1", "dog"⟩]
        [⟨"cat.png", some ("data:image/png;base64", "b1"), []⟩,
         ⟨"cat.jpg", some ("data:image/jpeg;base64", "b2"), []⟩]
      = .ok ([("val/images/cat.png", "b1"), ("val/labels/cat.txt", ""),
              ("val/images/cat.jpg", "b2"), ("val/labels/cat.txt", "")], "val.zip") ∧
    ¬ List.Nodup ["val/labels/cat.txt", "val/labels/cat.txt"] :=
  ⟨by rfl, by decide⟩

/-- Claim C4 (amended): every image contributes exactly one label entry —
entry `2k+1` of the archive, at `<dataset>/labels/<stem of its assigned
file name>.txt` — written even with zero valid boxes (empty content), so
the mapping is 1:1 by position; entry names may still collide when two
assigned file names share a stem. -/
theorem one_label_entry_per_image :
    ∀ (idx : String → Option ℕ) (folder : String) (images : List ImageAnn)
      (used : List String) (es : List (String × String)),
      exportImages idx folder images used = .ok es →
      es.length = 2 * images.length ∧
      ∀ k, k < images.length →
        ∃ fn bytes,
          es.getD (2 * k) ("", "") = (folder ++ "/images/" ++ fn, bytes) ∧
          (es.getD (2 * k + 1) ("", "")).1 = folder ++ "/labels/" ++ pathStem fn ++ ".txt" ∧
          (es.getD (2 * k + 1) ("", "")).2
            = joinSep "\n" (((images.getD k ⟨"", none, []⟩).boxes).filterMap (processBox idx)) := by
  intro idx folder images
  induction images with
  | nil =>
    intro used es h
    simp only [exportImages, Except.ok.injEq] at h
    subst h
    exact ⟨rfl, fun k hk => absurd hk (by simp)⟩
  | cons img rest ih =>
    intro used es h
    simp only [exportImages] at h
    split at h
    · exact absurd h (by simp)
    · split at h
      · exact absurd h (by simp)
      · rename_i hb es2 hrec
        simp only [Except.ok.injEq] at h
        subst h
        obtain ⟨ihlen, ihk⟩ := ih _ _ hrec
        refine ⟨by simp only [List.length_cons, ihlen]; omega, ?_⟩
        intro k hk
        cases k with
        | zero => exact ⟨_, _, rfl, rfl, rfl⟩
        | succ k2 =>
          obtain ⟨fn, bytes, h1, h2, h3⟩ := ihk k2 (by simpa using hk)
          have e1 : 2 * (k2 + 1) = 2 * k2 + 1 + 1 := by ring
          have e2 : 2 * (k2 + 1) + 1 = (2 * k2 + 1) + 1 + 1 := by ring
          refine ⟨fn, bytes, ?_, ?_, ?_⟩
          · rw [e1, List.getD_cons_succ, List.getD_cons_succ]
            exact h1
          · rw [e2, List.getD_cons_succ, List.getD_cons_succ]
            exact h2
          · rw [e2, List.getD_cons_succ, List.getD_cons_succ, List.getD_cons_succ]
            exact h3

/-- Claim C4, witness for the amended theorem at a one-image export. -/
theorem one_label_entry_per_image_witness :
    ([("val/images/a.png", "bts"), ("val/labels/a.txt", "")] : List (String × String)).length
        = 2 * ([⟨"a.png", some ("h", "bts"), []⟩] : List ImageAnn).length ∧
    ∀ k, k < ([⟨"a.png", some ("h", "bts"), []⟩] : List ImageAnn).length →
      ∃ fn bytes,
        ([("val/images/a.png", "bts"), ("val/labels/a.txt", "")] : List (String × String)).getD
            (2 * k) ("", "") = ("val" ++ "/images/" ++ fn, bytes) ∧
        (([("val/images/a.png", "bts"), ("val/labels/a.txt", "")] : List (String × String)).getD
            (2 * k + 1) ("", "")).1 = "val" ++ "/labels/" ++ pathStem fn ++ ".txt" ∧
        (([("val/images/a.png", "bts"), ("val/labels/a.txt", "")] : List (String × String)).getD
            (2 * k + 1) ("", "")).2
          = joinSep "\n" (((([⟨"a.png", some ("h", "bts"), []⟩] : List ImageAnn).getD k
              ⟨"", none, []⟩).boxes).filterMap (processBox (classIndex [⟨"c1", "dog"⟩]))) :=
  one_label_entry_per_image (classIndex [⟨"c1", "dog"⟩]) "val"
    [⟨"a.png", some ("h", "bts"), []⟩] []
    [("val/images/a.png", "bts"), ("val/labels/a.txt", "")] (by rfl)

/-- Claim C5: every box the exporter accepts yields `centerX, centerY,
width, height` all inside `[0, 1]`, for arbitrary percent inputs. -/
theorem converted_box_values_in_unit_interval :
    ∀ (index : String → Option ℕ) (b : BoxPct) (ci : ℕ) (cx cy w h : ℚ),
      convertBox index b = some (ci, cx, cy, w, h) →
      0 ≤ cx ∧ cx ≤ 1 ∧ 0 ≤ cy ∧ cy ≤ 1 ∧ 0 ≤ w ∧ w ≤ 1 ∧ 0 ≤ h ∧ h ≤ 1 := by
  intro index b ci cx cy w h hc
  unfold convertBox at hc
  split at hc <;> try exact Option.noConfusion hc
  split at hc <;> try exact Option.noConfusion hc
  split at hc <;> try exact Option.noConfusion hc
  simp only [Option.some.injEq, Prod.mk.injEq] at hc
  obtain ⟨rfl, rfl, rfl, rfl, rfl⟩ := hc
  exact ⟨clamp01_nonneg _, clamp01_le_one _, clamp01_nonneg _, clamp01_le_one _,
         clamp01_nonneg _, clamp01_le_one _, clamp01_nonneg _, clamp01_le_one _⟩

/-- Claim C5, witness at the example box. -/
theorem converted_box_values_witness :
    0 ≤ clamp01 ((10 + 30 / 2) / 100) ∧ clamp01 ((10 + 30 / 2) / 100) ≤ 1 ∧
    0 ≤ clamp01 ((20 + 40 / 2) / 100) ∧ clamp01 ((20 + 40 / 2) / 100) ≤ 1 ∧
    0 ≤ clamp01 (30 / 100) ∧ clamp01 (30 / 100) ≤ 1 ∧
    0 ≤ clamp01 (40 / 100) ∧ clamp01 (40 / 100) ≤ 1 :=
  converted_box_values_in_unit_interval (classIndex [⟨"c1", "dog"⟩])
    ⟨"c1", some 10, some 20, some 30, some 40⟩ 0
    (clamp01 ((10 + 30 / 2) / 100)) (clamp01 ((20 + 40 / 2) / 100))
    (clamp01 (30 / 100)) (clamp01 (40 / 100)) (by with_unfolding_all rfl)

/-- Claim C6: a box with an unknown class id, an unparseable coordinate, or
non-positive width/height contributes no label line, and removing it from
its image leaves the whole export result unchanged — it never causes an
error and the remaining boxes and images are still processed. -/
theorem invalid_box_skipped_export_unchanged :
    ∀ (idx : String → Option ℕ) (b : BoxPct), invalidBox idx b = true →
      processBox idx b = none ∧
      ∀ (slug : String) (classes : List ClassDef) (imgs1 imgs2 : List ImageAnn)
        (nm : String) (src : Option (String × String)) (pre post : List BoxPct),
        idx = classIndex classes →
        _export_dataset_zip slug classes (imgs1 ++ ⟨nm, src, pre ++ b :: post⟩ :: imgs2)
          = _export_dataset_zip slug classes (imgs1 ++ ⟨nm, src, pre ++ post⟩ :: imgs2) := by
  intro idx b hinv
  have hnone := invalid_box_no_line idx b hinv
  refine ⟨hnone, ?_⟩
  intro slug classes imgs1 imgs2 nm src pre post hidx
  subst hidx
  have hne : ∀ (l1 l2 : List ImageAnn) (x : ImageAnn), (l1 ++ x :: l2).isEmpty = false := by
    intro l1 l2 x
    cases l1 <;> rfl
  have hfm : List.filterMap (processBox (classIndex classes)) (pre ++ b :: post)
      = List.filterMap (processBox (classIndex classes)) (pre ++ post) := by
    simp [List.filterMap_append, List.filterMap_cons, hnone]
  simp only [_export_dataset_zip, hne]
  rw [exportImages_boxes_congr (classIndex classes) _
    ⟨nm, src, pre ++ b :: post⟩ ⟨nm, src, pre ++ post⟩ rfl rfl hfm imgs1 imgs2 []]

/-- Claim C6, witness: a box with an unknown class id is dropped and the
export result is the same as without it. -/
theorem invalid_box_skipped_witness :
    processBox (classIndex [⟨"c1", "dog"⟩]) ⟨"zzz", some 1, some 1, some 1, some 1⟩ = none ∧
    _export_dataset_zip "val" [⟨"c1", "dog"⟩]
        [⟨"a.png", some ("h", "b"), [⟨"zzz", some 1, some 1, some 1, some 1⟩]⟩]
      = _export_dataset_zip "val" [⟨"c1", "dog"⟩] [⟨"a.png", some ("h", "b"), []⟩] := by
  have h := invalid_box_skipped_export_unchanged (classIndex [⟨"c1", "dog"⟩])
    ⟨"zzz", some 1, some 1, some 1, some 1⟩ (by decide)
  exact ⟨h.1, h.2 "val" [⟨"c1", "dog"⟩] [] [] "a.png" (some ("h", "b")) [] [] rfl⟩

/-- Claim C7: `_load_weights` rejects empty checkpoint bytes with a
ModelLoad error, and on every failure path the returned engine state — in
particular the cached content hash — equals the prior state. -/
theorem load_weights_failure_keeps_state :
    ∀ (env : WeightEnv) (st : EngineState) (weight_bytes : List ℕ) (label : String),
      (weight_bytes = [] →
        _load_weights env st weight_bytes label = (st, .error .emptyFile, ⟨0, 0⟩)) ∧
      (∀ e st2 tr, _load_weights env st weight_bytes label = (st2, .error e, tr) → st2 = st) := by
  intro env st weight_bytes label
  constructor
  · intro h
    simp [_load_weights, h]
  · intro e st2 tr h
    simp only [_load_weights] at h
    by_cases hE : weight_bytes = []
    · rw [if_pos hE] at h
      exact (Prod.mk.injEq _ _ _ _ |>.mp h).1.symm
    · rw [if_neg hE] at h
      by_cases hH : st.current_weight_hash = some (env.sha1 weight_bytes)
      · rw [if_pos hH] at h
        exact (Prod.mk.injEq _ _ _ _ |>.mp h).1.symm
      · rw [if_neg hH] at h
        split at h
        · exact (Prod.mk.injEq _ _ _ _ |>.mp h).1.symm
        · split at h
          · exact (Prod.mk.injEq _ _ _ _ |>.mp h).1.symm
          · have := (Prod.mk.injEq _ _ _ _ |>.mp h).2
            exact absurd (Prod.mk.injEq _ _ _ _ |>.mp this).1 (by simp)

/-- An environment whose deserializer always fails, for the C7 witness. -/
def c7env : WeightEnv :=
  { sha1 := fun _ => "h0", torchLoad := fun _ => .error "boom", applyResult := fun _ => none }

/-- Claim C7, witness: the empty-input rejection and a failed deserialization
both leave the cached hash untouched. -/
theorem load_weights_failure_keeps_state_witness :
    _load_weights c7env ⟨some "old"⟩ [] "m.pt" = (⟨some "old"⟩, .error .emptyFile, ⟨0, 0⟩) ∧
    (⟨some "old"⟩ : EngineState) = ⟨some "old"⟩ :=
  ⟨(load_weights_failure_keeps_state c7env ⟨some "old"⟩ [] "m.pt").1 rfl,
   (load_weights_failure_keeps_state c7env ⟨some "old"⟩ [1] "m.pt").2
     (.deserializeFailed "m.pt" "boom") ⟨some "old"⟩ ⟨1, 0⟩ (by rfl)⟩

/-- Claim C8: after a successful `_load_weights` call, a second call with
identical bytes is a no-op — same state back, success, zero deserializations
and zero applies — and when the first call was not itself a cache hit it
performed exactly one deserialization and one apply. -/
theorem weight_cache_hit_second_call_noop :
    ∀ (env : WeightEnv) (st0 st1 : EngineState) (weight_bytes : List ℕ)
      (label1 label2 : String) (tr1 : LoadTrace),
      _load_weights env st0 weight_bytes label1 = (st1, .ok (), tr1) →
      _load_weights env st1 weight_bytes label2 = (st1, .ok (), ⟨0, 0⟩) ∧
      (st0.current_weight_hash ≠ some (env.sha1 weight_bytes) → tr1 = ⟨1, 1⟩) := by
  intro env st0 st1 weight_bytes label1 label2 tr1 h
  simp only [_load_weights] at h
  by_cases hE : weight_bytes = []
  · rw [if_pos hE] at h
    exact absurd ((Prod.mk.injEq _ _ _ _ |>.mp h).2) (by simp)
  · rw [if_neg hE] at h
    by_cases hH : st0.current_weight_hash = some (env.sha1 weight_bytes)
    · rw [if_pos hH] at h
      obtain ⟨h1, h2⟩ := Prod.mk.injEq _ _ _ _ |>.mp h
      obtain ⟨h3, h4⟩ := Prod.mk.injEq _ _ _ _ |>.mp h2
      constructor
      · simp only [_load_weights]
        rw [if_neg hE, if_pos (by rw [← h1]; exact hH)]
      · intro hc
        exact absurd hH hc
    · rw [if_neg hH] at h
      split at h
      · exact absurd ((Prod.mk.injEq _ _ _ _ |>.mp h).2) (by simp)
      · split at h
        · exact absurd ((Prod.mk.injEq _ _ _ _ |>.mp h).2) (by simp)
        · obtain ⟨h1, h2⟩ := Prod.mk.injEq _ _ _ _ |>.mp h
          obtain ⟨h3, h4⟩ := Prod.mk.injEq _ _ _ _ |>.mp h2
          constructor
          · simp only [_load_weights]
            rw [if_neg hE, if_pos (by rw [← h1])]
          · intro hdummy
            exact h4.symm

/-- An environment with a fixed hash and a succeeding load/apply, for the
C8 witness. -/
def c8env : WeightEnv :=
  { sha1 := fun _ => "h0", torchLoad := fun _ => .ok (.dict []), applyResult := fun _ => none }

/-- Claim C8, witness: the second call with the same bytes after a fresh
successful load is a no-op with zero deserializations and applies. -/
theorem weight_cache_hit_second_call_noop_witness :
    _load_weights c8env ⟨some "h0"⟩ [1] "b.pt" = (⟨some "h0"⟩, .ok (), ⟨0, 0⟩) ∧
    ((⟨none⟩ : EngineState).current_weight_hash ≠ some (c8env.sha1 [1]) →
      (⟨1, 1⟩ : LoadTrace) = ⟨1, 1⟩) :=
  weight_cache_hit_second_call_noop c8env ⟨none⟩ ⟨some "h0"⟩ [1] "a.pt" "b.pt" ⟨1, 1⟩ (by rfl)

/-- Claim C9: the effective inference resolution is the posted value clamped
to [32, 2048] and rounded down to the nearest multiple of 32 (itself within
[32, 2048]); an unparseable value falls back to 640; 650 gives 640 and 10
gives 32. -/
theorem img_size_rounding :
    effective_img_size none = 640 ∧
    (∀ n : ℤ, ∃ k : ℤ,
      effective_img_size (some n) = 32 * k ∧
      effective_img_size (some n) ≤ max 32 (min 2048 n) ∧
      max 32 (min 2048 n) < effective_img_size (some n) + 32 ∧
      32 ≤ effective_img_size (some n) ∧ effective_img_size (some n) ≤ 2048) ∧
    effective_img_size (some 650) = 640 ∧
    effective_img_size (some 10) = 32 := by
  refine ⟨rfl, ?_, by decide, by decide⟩
  intro n
  simp only [effective_img_size, _parse_int]
  refine ⟨max 32 (min 2048 n) / 32, ?_⟩
  split_ifs <;> omega

/-- Claim C10: a negative class id `-len ≤ id < 0` resolves the class name
by indexing the taxonomy from the end (Python negative indexing); an id
below `-len` raises IndexError; the `class_<id>` fallback is used exactly
for `id ≥ len`. -/
theorem class_name_negative_indexing :
    ∀ (names : List String) (clsId : ℤ),
      (-(names.length : ℤ) ≤ clsId → clsId < 0 →
        resolveClassName names clsId = .ok (names.reverse.getD (-(clsId + 1)).toNat "")) ∧
      (clsId < -(names.length : ℤ) →
        resolveClassName names clsId = .error "list index out of range") ∧
      ((names.length : ℤ) ≤ clsId →
        resolveClassName names clsId = .ok ("class_" ++ toString clsId)) := by
  intro names clsId
  refine ⟨?_, ?_, ?_⟩
  · intro h1 h2
    rw [resolveClassName, if_pos (by omega), if_neg (by omega), if_pos h1]
    have := reverse_getD_of_add names ((names.length : ℤ) + clsId).toNat
      (-(clsId + 1)).toNat (by omega)
    rw [this]
  · intro h
    have hlen : (0 : ℤ) ≤ (names.length : ℤ) := Int.ofNat_nonneg _
    rw [resolveClassName, if_pos (by omega), if_neg (by omega), if_neg (by omega)]
  · intro h
    rw [resolveClassName, if_neg (by omega)]

/-- Claim C10, witness: id `-1` on the taxonomy `["a", "b", "c"]` resolves
to the last name. -/
theorem class_name_negative_indexing_witness :
    resolveClassName ["a", "b", "c"] (-1)
      = .ok ((["a", "b", "c"].reverse).getD (-((-1 : ℤ) + 1)).toNat "") :=
  (class_name_negative_indexing ["a", "b", "c"] (-1)).1 (by decide) (by decide)
